import Mathlib

/-!
Verification development for the criclive backend (src/backend).

Shallow embedding of:
  * the TTL cache store              (src/backend/src/cache.js)
  * the poller refresh strategies    (poller.js, embedded in src/backend/README.md)
  * the route-layer match-list merge (src/backend/src/routes.js)
  * the Cricbuzz normalizer          (src/backend/src/cricbuzzScraper.js)

Timestamps are modelled as `Int` milliseconds (JS `Date.now()`); `Math.floor`
of a millisecond difference divided by 1000 is `Int.fdiv` (floor division).
All functions are total; a JS `throw` is modelled with `Except`.
-/

namespace Criclive

/-! ## TTL cache store (src/backend/src/cache.js)

The JS `Map` is modelled as a function from keys to optional entries; the
claims only ever observe the store pointwise, never its iteration order. -/

structure CacheEntry (α : Type) where
  value : α
  expiresAt : Int
  cachedAt : Int
deriving DecidableEq, Repr

def CacheStore (α : Type) := String → Option (CacheEntry α)

variable {α : Type}

/-- Empty store (`new Map()`). -/
def CacheStore.empty : CacheStore α := fun _ => none

/-- Cache.set: unconditional overwrite; `expiresAt = now + ttlSeconds * 1000`,
`cachedAt = now`. -/
def CacheStore.set (s : CacheStore α) (key : String) (v : α)
    (ttlSeconds : Int) (now : Int) : CacheStore α :=
  fun k => if k = key then some ⟨v, now + ttlSeconds * 1000, now⟩ else s k

/-- Cache.get: absent key gives `none`; an entry with `now > expiresAt` is
deleted from the store (lazy eviction) and `none` is returned; otherwise the
entry itself is returned.  The second component is the store after the call
(the side effect of eviction).  The function is total: a miss is a normal
return value, never an error. -/
def CacheStore.get (s : CacheStore α) (key : String) (now : Int) :
    Option (CacheEntry α) × CacheStore α :=
  match s key with
  | none => (none, s)
  | some entry =>
    if entry.expiresAt < now then
      (none, fun k => if k = key then none else s k)
    else
      (some entry, s)

/-- Cache.age: `Math.floor((Date.now() - entry.cachedAt) / 1000)` for a
resident entry, `null` otherwise.  Expiry is never consulted. -/
def CacheStore.age (s : CacheStore α) (key : String) (now : Int) : Option Int :=
  match s key with
  | none => none
  | some entry => some ((now - entry.cachedAt).fdiv 1000)

/-! ## Refresh strategies (poller.js, both variants, from src/backend/README.md)

The poller module state is the cache plus the three status variables
`pollCount`/`fetchCount`, `lastSuccess`, `lastError`.  One refresh cycle is a
step function taking the outcome of the upstream fetch (`Except.ok` a payload,
`Except.error` a message) and the current time. -/

structure PollerState (α : Type) where
  cache : CacheStore α
  pollCount : Nat
  lastSuccess : Option Int
  lastError : Option String

def currentMatchesKey : String := "currentMatches"

/-- pollCurrentMatches (scheduled-polling variant): on success write the
payload under `currentMatches` with the live TTL and record `lastSuccess`;
on failure record `lastError = err.message` and touch nothing else.  The
counter increments in both branches (`++pollCount` precedes the fetch).
The catch swallows the error: the function always returns a state. -/
def pollCurrentMatches (st : PollerState α) (fetched : Except String α)
    (now liveTtl : Int) : PollerState α :=
  match fetched with
  | Except.ok data =>
    { cache := st.cache.set currentMatchesKey data liveTtl now
      pollCount := st.pollCount + 1
      lastSuccess := some now
      lastError := st.lastError }
  | Except.error msg =>
    { cache := st.cache
      pollCount := st.pollCount + 1
      lastSuccess := st.lastSuccess
      lastError := some msg }

/-- fetchCurrentMatches (on-demand variant): identical state transition, but
the failure is re-thrown to the caller (second component). -/
def fetchCurrentMatchesOD (st : PollerState α) (fetched : Except String α)
    (now liveTtl : Int) : PollerState α × Except String Unit :=
  match fetched with
  | Except.ok data =>
    ({ cache := st.cache.set currentMatchesKey data liveTtl now
       pollCount := st.pollCount + 1
       lastSuccess := some now
       lastError := st.lastError }, Except.ok ())
  | Except.error msg =>
    ({ cache := st.cache
       pollCount := st.pollCount + 1
       lastSuccess := st.lastSuccess
       lastError := some msg }, Except.error msg)

/-- status(): the `{pollCount, lastSuccess, lastError}` snapshot. -/
def pollerStatus (st : PollerState α) : Nat × Option Int × Option String :=
  (st.pollCount, st.lastSuccess, st.lastError)

/-! ## Claim theorems about the cache and the poller -/

/-- C1: for every key `k`, value `v` and `ttl > 0`, immediately after
`set(k, v, ttl)` a `get(k)` returns the entry holding `v`; at any instant
strictly later than `ttl` seconds after the write, `get(k)` returns absent and
evicts the entry from the store as a side effect; `get` of a key that is not
in the store returns absent.  `get` is a total function, so no miss raises an
error. -/
theorem cache_set_get_ttl (c : CacheStore α) (k : String) (v : α)
    (ttl t : Int) (httl : 0 < ttl) :
    ((c.set k v ttl t).get k t).1 = some ⟨v, t + ttl * 1000, t⟩
    ∧ (∀ u : Int, t + ttl * 1000 < u →
        ((c.set k v ttl t).get k u).1 = none
        ∧ ((c.set k v ttl t).get k u).2 k = none)
    ∧ (∀ (d : CacheStore α) (k2 : String) (u : Int),
        d k2 = none → (d.get k2 u).1 = none) := by
  refine ⟨?_, ?_, ?_⟩
  · simp only [CacheStore.get, CacheStore.set, if_pos rfl]
    have hexp : ¬ (t + ttl * 1000 < t) := by nlinarith
    simp [hexp]
  · intro u hu
    have hlt : (t + ttl * 1000 : Int) < u := hu
    constructor <;> simp [CacheStore.get, CacheStore.set, hlt]
  · intro d k2 u hd
    simp [CacheStore.get, hd]

/-- C1 witness: concrete run with `ttl = 30` seconds written at `t = 0`:
an immediate read hits, a read at `30001` ms misses and evicts. -/
theorem cache_set_get_ttl_witness :
    ((CacheStore.empty.set "k" (7 : Nat) 30 0).get "k" 0).1 = some ⟨7, 30000, 0⟩
    ∧ ((CacheStore.empty.set "k" (7 : Nat) 30 0).get "k" 30001).1 = none
    ∧ ((CacheStore.empty.set "k" (7 : Nat) 30 0).get "k" 30001).2 "k" = none
    ∧ ((CacheStore.empty (α := Nat)).get "never" 5).1 = none := by
  have h := cache_set_get_ttl (CacheStore.empty) "k" (7 : Nat) 30 0 (by decide)
  refine ⟨?_, (h.2.1 30001 (by decide)).1, (h.2.1 30001 (by decide)).2,
    h.2.2 CacheStore.empty "never" 5 rfl⟩
  have h1 := h.1
  simpa using h1

/-- C2: a refresh cycle whose upstream fetch fails leaves the cache function
untouched (so every key, in particular a previously written `currentMatches`
entry, reads exactly as before, stale-but-present until its own TTL expires),
records the failure message in the status snapshot (`lastError` populated),
and leaves `lastSuccess` unchanged.  This holds for both poller variants; the
scheduled variant swallows the error (total state-to-state function), the
on-demand variant re-throws it to its caller. -/
theorem poll_failure_preserves_cache (st : PollerState α) (msg : String)
    (now ttl : Int) :
    (pollCurrentMatches st (Except.error msg) now ttl).cache = st.cache
    ∧ (pollerStatus (pollCurrentMatches st (Except.error msg) now ttl)).2.2 = some msg
    ∧ (pollCurrentMatches st (Except.error msg) now ttl).lastSuccess = st.lastSuccess
    ∧ (fetchCurrentMatchesOD st (Except.error msg) now ttl).1.cache = st.cache
    ∧ (pollerStatus (fetchCurrentMatchesOD st (Except.error msg) now ttl).1).2.2 = some msg
    ∧ (fetchCurrentMatchesOD st (Except.error msg) now ttl).1.lastSuccess = st.lastSuccess
    ∧ (fetchCurrentMatchesOD st (Except.error msg) now ttl).2 = Except.error msg
    ∧ (∀ (k : String) (u : Int),
        (pollCurrentMatches st (Except.error msg) now ttl).cache.get k u
          = st.cache.get k u) :=
  ⟨rfl, rfl, rfl, rfl, rfl, rfl, rfl, fun _ _ => rfl⟩

/-- C2 witness: a concrete failing cycle over a warm cache: the cached value
is still readable afterwards and the status reflects the failure. -/
theorem poll_failure_preserves_cache_witness :
    ((pollCurrentMatches
        ⟨CacheStore.empty.set currentMatchesKey (42 : Nat) 30 0, 1, some 0, none⟩
        (Except.error "upstream timeout") 10000 30).cache.get
          currentMatchesKey 10000).1 = some ⟨42, 30000, 0⟩
    ∧ (pollerStatus (pollCurrentMatches
        ⟨CacheStore.empty.set currentMatchesKey (42 : Nat) 30 0, 1, some 0, none⟩
        (Except.error "upstream timeout") 10000 30)).2.2 = some "upstream timeout" := by
  have h := poll_failure_preserves_cache
    (⟨CacheStore.empty.set currentMatchesKey (42 : Nat) 30 0, 1, some 0, none⟩ :
      PollerState Nat) "upstream timeout" 10000 30
  constructor
  · rw [show (pollCurrentMatches
        ⟨CacheStore.empty.set currentMatchesKey (42 : Nat) 30 0, 1, some 0, none⟩
        (Except.error "upstream timeout") 10000 30).cache.get currentMatchesKey 10000
        = (CacheStore.empty.set currentMatchesKey (42 : Nat) 30 0).get
            currentMatchesKey 10000 from h.2.2.2.2.2.2.2 currentMatchesKey 10000]
    simp [CacheStore.get, CacheStore.set, currentMatchesKey]
  · exact h.2.1

/-- C8 counterexample: the claim asserts that once `now > expiresAt` the
`age` operation returns absent; in the code `age` never consults expiry.
Concretely: set at `t = 0` with `ttl = 1` second (`expiresAt = 1000`), then
at `now = 2000` (expired) `age` still reports `some 2`, not absent. -/
theorem age_after_expiry_counterexample :
    (CacheStore.empty.set "k" (7 : Nat) 1 0).age "k" 2000 = some 2
    ∧ ((1000 : Int) < 2000
        ∧ (CacheStore.empty.set "k" (7 : Nat) 1 0).age "k" 2000 ≠ none) := by
  refine ⟨?_, by decide, ?_⟩ <;> simp [CacheStore.age, CacheStore.set]

/-- C8 amended: `age(k)` returns `floor((now - cachedAt) / 1000)` for every
resident entry, independent of expiry (an expired-but-not-yet-evicted entry
still reports an age); it returns absent exactly when the key is not resident:
never set, or evicted — in particular after a `get` at a time past
`expiresAt` has evicted the entry, `age` returns absent. -/
theorem age_resident_independent_of_expiry (c : CacheStore α) (k : String)
    (v : α) (ttl t now u : Int) (hu : t + ttl * 1000 < u) :
    (c.set k v ttl t).age k now = some ((now - t).fdiv 1000)
    ∧ (CacheStore.empty (α := α)).age k now = none
    ∧ (((c.set k v ttl t).get k u).2).age k now = none := by
  refine ⟨?_, rfl, ?_⟩
  · simp [CacheStore.age, CacheStore.set]
  · have hlt : (t + ttl * 1000 : Int) < u := hu
    simp [CacheStore.get, CacheStore.set, CacheStore.age, hlt]

/-- C8 amended witness: entry set at `t = 0`, `ttl = 1`; `age` at `now = 2000`
(already expired) is `some 2`; after the evicting `get` at `2000`, `age` is
absent. -/
theorem age_resident_independent_of_expiry_witness :
    (CacheStore.empty.set "k" (7 : Nat) 1 0).age "k" 2000 = some 2
    ∧ (((CacheStore.empty.set "k" (7 : Nat) 1 0).get "k" 2000).2).age "k" 2000 = none := by
  have h := age_resident_independent_of_expiry
    (CacheStore.empty) "k" (7 : Nat) 1 0 2000 2000 (by decide)
  refine ⟨?_, h.2.2⟩
  have h1 := h.1
  simpa using h1

/-! ## Match state classification (cricbuzzScraper.js, parseState) -/

/-- JS `toLowerCase`, modelled as ASCII case folding over the characters
(every word in the two fixed vocabularies is ASCII). -/
def jsToLower (s : String) : String := String.mk (s.data.map Char.toLower)

def LIVE_STATES : List String :=
  ["in progress", "innings break", "strategic timeout",
   "rain", "bad light", "stumps", "drinks", "tea", "lunch", "in break"]

def ENDED_STATES : List String :=
  ["complete", "result", "abandoned", "no result", "cancelled"]

/-- parseState: lowercase the free-text state; `matchEnded` iff it is in the
ended set; `matchStarted` iff `matchEnded` or it is in the live set. -/
def parseState (state : String := "") : Bool × Bool :=
  let s := jsToLower state
  let matchEnded := ENDED_STATES.contains s
  let matchStarted := matchEnded || LIVE_STATES.contains s
  (matchStarted, matchEnded)

/-! ## Normalized match records and the route-layer merge
(cricbuzzScraper.js normalizeMatch / buildScores, routes.js GET /matches) -/

structure InnScore where
  inning : String
  r : Option Int
  w : Option Int
  o : Option String
deriving DecidableEq, Repr

structure TeamInfo where
  name : Option String
  shortname : Option String
  img : Option String
deriving DecidableEq, Repr

structure Match where
  id : String
  name : String
  matchType : String
  status : String
  dateTimeGMT : String
  matchStarted : Bool
  matchEnded : Bool
  teams : List String
  teamInfo : List TeamInfo
  score : List InnScore
deriving DecidableEq, Repr

/-- Loop body of the routes.js merge: walk `current ++ upcoming`, keeping a
`seen` set of ids, appending each match whose id was not seen before. -/
def dedupGo : List Match → List String → List Match
  | [], _ => []
  | m :: rest, seen =>
    if seen.contains m.id then dedupGo rest seen
    else m :: dedupGo rest (m.id :: seen)

/-- The GET /api/matches merge: deduplicate `currentData ++ upcomingData`
by id, first occurrence kept. -/
def mergeMatches (currentData upcomingData : List Match) : List Match :=
  dedupGo (currentData ++ upcomingData) []

/-! ## normalizeMatch (cricbuzzScraper.js)

Raw inputs mirror the JS object shapes; a field that may be `undefined`
or `null` is an `Option`.  `Date.toISOString` is not re-modelled: it is
passed in as an explicit formatting function `toISO`, which no claim
depends on. -/

structure RawTeam where
  teamName : Option String
  teamSName : Option String
  imageId : Option Nat
deriving DecidableEq, Repr

structure RawInnScore where
  inningsId : Option Int
  runs : Option Int
  r : Option Int
  wickets : Option Int
  w : Option Int
  overs : Option String
  o : Option String
deriving DecidableEq, Repr

/-- A `team1Score`-style object: `Object.entries` order of its (key, innings)
pairs, each value possibly `null`. -/
def InnScoreObj := List (String × Option RawInnScore)

structure RawMatchInfo where
  matchId : Nat
  state : Option String
  status : Option String
  team1 : Option RawTeam
  team2 : Option RawTeam
  seriesName : Option String
  matchDesc : Option String
  matchFormat : Option String
  startDate : Option Int
  team1Score : Option InnScoreObj
  team2Score : Option InnScoreObj

structure RawMatchScore where
  team1Score : Option InnScoreObj
  team2Score : Option InnScoreObj

/-- teamImg: `null` for a missing or zero (falsy) image id, otherwise the
CDN URL built from the id. -/
def teamImg (imageId : Option Nat) : Option String :=
  match imageId with
  | none => none
  | some i =>
    if i = 0 then none
    else some ("https://static.cricbuzz.com/a/img/v1/75x75/i1/c"
                ++ toString i ++ "/team.jpg")

/-- `innObj.inningsId || 1`: JS falsy (missing or zero) becomes 1. -/
def inningsIdOr1 (x : Option Int) : Int :=
  match x with
  | none => 1
  | some n => if n = 0 then 1 else n

/-- One pushed score row: `inning` label from the team name and innings id,
`r`/`w`/`o` via nullish coalescing of the two possible field spellings. -/
def buildScoreRow (teamName : String) (innObj : RawInnScore) : InnScore :=
  { inning := teamName ++ " Inning " ++ toString (inningsIdOr1 innObj.inningsId)
    r := innObj.runs.orElse (fun _ => innObj.r)
    w := innObj.wickets.orElse (fun _ => innObj.w)
    o := innObj.overs.orElse (fun _ => innObj.o) }

/-- Rows contributed by one `Object.entries(tScore || {})` loop, skipping
`null` innings objects. -/
def buildScoresSide (teamName : String) (tScore : Option InnScoreObj) : List InnScore :=
  match tScore with
  | none => []
  | some entries => entries.filterMap (fun kv => kv.2.map (buildScoreRow teamName))

/-- buildScores: team-1 rows then team-2 rows; each side's score object is
taken from `matchScore` first, falling back to the inline copy on
`matchInfo` (JS `||`, which for these object-or-undefined operands is
`Option.orElse`). -/
def buildScores (matchInfo : RawMatchInfo) (matchScore : Option RawMatchScore) :
    List InnScore :=
  let t1Name := (matchInfo.team1.bind (fun t => t.teamName)).getD ""
  let t2Name := (matchInfo.team2.bind (fun t => t.teamName)).getD ""
  let t1Score := ((matchScore.bind (fun s => s.team1Score)).orElse
                    (fun _ => matchInfo.team1Score))
  let t2Score := ((matchScore.bind (fun s => s.team2Score)).orElse
                    (fun _ => matchInfo.team2Score))
  buildScoresSide t1Name t1Score ++ buildScoresSide t2Name t2Score

/-- `[a, b].filter(Boolean)` over optional strings: drop `undefined` and
empty (falsy) strings. -/
def filterTruthyStrings (xs : List (Option String)) : List String :=
  (xs.filterMap id).filter (fun s => s ≠ "")

/-- The teamInfo entry built for one present raw team. -/
def mkTeamInfo (t : RawTeam) : TeamInfo :=
  { name := t.teamName, shortname := t.teamSName, img := teamImg t.imageId }

/-- normalizeMatch: composite id `"<matchId>~<slug>"`, or the bare numeric
string when the slug is falsy (empty); name joins seriesName and matchDesc
with an en dash; state classified by `parseState`. -/
def normalizeMatch (toISO : Int → String) (matchInfo : RawMatchInfo)
    (matchScore : Option RawMatchScore) (slug : String) : Match :=
  let st := parseState (matchInfo.state.getD "")
  let id := if slug = "" then toString matchInfo.matchId
            else toString matchInfo.matchId ++ "~" ++ slug
  { id := id
    name := String.intercalate " – "
      (filterTruthyStrings [matchInfo.seriesName, matchInfo.matchDesc])
    matchType := jsToLower (matchInfo.matchFormat.getD "")
    status := (matchInfo.status.getD "")
    dateTimeGMT := match matchInfo.startDate with
                   | some ms => toISO ms
                   | none => ""
    matchStarted := st.1
    matchEnded := st.2
    teams := filterTruthyStrings
      [matchInfo.team1.bind (fun t => t.teamName),
       matchInfo.team2.bind (fun t => t.teamName)]
    teamInfo := ([matchInfo.team1.map mkTeamInfo,
                  matchInfo.team2.map mkTeamInfo]).filterMap (fun x => x)
    score := buildScores matchInfo matchScore }

/-! ## Helper lemmas about the merge loop -/

theorem dedupGo_sublist (l : List Match) (seen : List String) :
    (dedupGo l seen).Sublist l := by
  induction l generalizing seen with
  | nil => simp [dedupGo]
  | cons x rest ih =>
    simp only [dedupGo]
    split
    · exact (ih seen).cons x
    · exact (ih (x.id :: seen)).cons₂ x

theorem dedupGo_mem_not_seen (l : List Match) (seen : List String) (m : Match)
    (hm : m ∈ dedupGo l seen) : m.id ∉ seen := by
  induction l generalizing seen with
  | nil => simp [dedupGo] at hm
  | cons x rest ih =>
    simp only [dedupGo] at hm
    by_cases hc : seen.contains x.id
    · rw [if_pos hc] at hm
      exact ih seen hm
    · rw [if_neg hc] at hm
      rcases List.mem_cons.mp hm with hEq | hTail
      · subst hEq
        intro hmem
        exact hc (List.elem_iff.mpr hmem)
      · intro hmem
        exact ih (x.id :: seen) hTail (List.mem_cons_of_mem _ hmem)

theorem dedupGo_nodup (l : List Match) (seen : List String) :
    ((dedupGo l seen).map Match.id).Nodup := by
  induction l generalizing seen with
  | nil => simp [dedupGo]
  | cons x rest ih =>
    simp only [dedupGo]
    split
    · exact ih seen
    · rw [List.map_cons, List.nodup_cons]
      refine ⟨?_, ih (x.id :: seen)⟩
      intro hmem
      rcases List.mem_map.mp hmem with ⟨m, hm, hid⟩
      exact dedupGo_mem_not_seen rest (x.id :: seen) m hm
        (hid ▸ List.mem_cons_self _ _)

theorem dedupGo_find (l : List Match) (seen : List String) (x : String)
    (hx : x ∉ seen) :
    (dedupGo l seen).find? (fun m => m.id == x)
      = l.find? (fun m => m.id == x) := by
  induction l generalizing seen with
  | nil => simp [dedupGo]
  | cons hd rest ih =>
    simp only [dedupGo]
    by_cases hc : seen.contains hd.id
    · rw [if_pos hc]
      have hne : hd.id ≠ x := fun h => hx (h ▸ List.elem_iff.mp hc)
      rw [List.find?_cons_of_neg _ (by simpa using hne), ih seen hx]
    · rw [if_neg hc]
      by_cases hpx : hd.id = x
      · rw [List.find?_cons_of_pos _ (by simpa using hpx),
            List.find?_cons_of_pos _ (by simpa using hpx)]
      · rw [List.find?_cons_of_neg _ (by simpa using hpx),
            List.find?_cons_of_neg _ (by simpa using hpx)]
        refine ih (hd.id :: seen) ?_
        intro hmem
        rcases List.mem_cons.mp hmem with h | h
        · exact hpx h.symm
        · exact hx h

/-- A match record carrying only an id, as in the spec example
`[{id:"1"},{id:"2"}]`. -/
def mkIdMatch (i : String) : Match :=
  { id := i, name := "", matchType := "", status := "", dateTimeGMT := ""
    matchStarted := false, matchEnded := false
    teams := [], teamInfo := [], score := [] }

/-- C3: the GET /api/matches merge of a current list and an upcoming list
(1) produces ids with no duplicates, (2) is a sublist of
`current ++ upcoming`, so insertion order is preserved, (3) resolves every
id to the first record carrying it in `current ++ upcoming` (current entries
win over upcoming entries with the same id), and (4) on the spec example
merges `[{id:"1"},{id:"2"}]` with `[{id:"2"},{id:"3"}]` to exactly
`[{id:"1"},{id:"2"},{id:"3"}]`. -/
theorem merge_matches_dedup (cur upc : List Match) :
    ((mergeMatches cur upc).map Match.id).Nodup
    ∧ (mergeMatches cur upc).Sublist (cur ++ upc)
    ∧ (∀ x : String,
        (mergeMatches cur upc).find? (fun m => m.id == x)
          = (cur ++ upc).find? (fun m => m.id == x))
    ∧ mergeMatches [mkIdMatch "1", mkIdMatch "2"] [mkIdMatch "2", mkIdMatch "3"]
        = [mkIdMatch "1", mkIdMatch "2", mkIdMatch "3"] := by
  refine ⟨dedupGo_nodup _ _, dedupGo_sublist _ _, ?_, ?_⟩
  · intro x
    exact dedupGo_find (cur ++ upc) [] x (List.not_mem_nil x)
  · rfl

/-- C3 witness: the merge applied to the spec's concrete example, via the
theorem's components. -/
theorem merge_matches_dedup_witness :
    mergeMatches [mkIdMatch "1", mkIdMatch "2"] [mkIdMatch "2", mkIdMatch "3"]
        = [mkIdMatch "1", mkIdMatch "2", mkIdMatch "3"]
    ∧ ((mergeMatches [mkIdMatch "1", mkIdMatch "2"]
          [mkIdMatch "2", mkIdMatch "3"]).map Match.id).Nodup :=
  ⟨(merge_matches_dedup [] []).2.2.2, (merge_matches_dedup
      [mkIdMatch "1", mkIdMatch "2"] [mkIdMatch "2", mkIdMatch "3"]).1⟩

/-- C4: `matchEnded` exactly when the lowercased state is in the fixed ended
vocabulary; `matchStarted` exactly when it is in the ended or the live
vocabulary; any other state classifies as `(false, false)`; and
`matchEnded` implies `matchStarted` for every input string. -/
theorem parse_state_classification (s : String) :
    ((parseState s).2 = true ↔ jsToLower s ∈ ENDED_STATES)
    ∧ ((parseState s).1 = true ↔
        (jsToLower s ∈ ENDED_STATES ∨ jsToLower s ∈ LIVE_STATES))
    ∧ ((jsToLower s ∉ ENDED_STATES ∧ jsToLower s ∉ LIVE_STATES) →
        parseState s = (false, false))
    ∧ ((parseState s).2 = true → (parseState s).1 = true) := by
  refine ⟨?_, ?_, ?_, ?_⟩
  · simp [parseState, List.elem_iff]
  · simp [parseState, List.elem_iff]
  · intro h
    simp only [parseState]
    rw [show ENDED_STATES.contains (jsToLower s) = false by
          simpa using fun hmem => h.1 (List.elem_iff.mp hmem),
        show LIVE_STATES.contains (jsToLower s) = false by
          simpa using fun hmem => h.2 (List.elem_iff.mp hmem)]
    rfl
  · intro h
    simp only [parseState] at h ⊢
    rw [h]
    rfl

/-- C4 witness: the spec's three concrete states: `"In Progress"` is started
and not ended, `"Complete"` is started and ended, `"Scheduled"` is neither. -/
theorem parse_state_classification_witness :
    (parseState "In Progress").1 = true
    ∧ (parseState "Complete").2 = true
    ∧ (parseState "Complete").1 = true
    ∧ parseState "Scheduled" = (false, false) := by
  refine ⟨?_, ?_, ?_, ?_⟩
  · exact (parse_state_classification "In Progress").2.1.mpr (Or.inr (by decide))
  · exact (parse_state_classification "Complete").1.mpr (by decide)
  · exact (parse_state_classification "Complete").2.2.2
      ((parse_state_classification "Complete").1.mpr (by decide))
  · exact (parse_state_classification "Scheduled").2.2.1 ⟨by decide, by decide⟩

/-- C5: the composite id produced by normalizeMatch is
`"<numericId>~<slug>"` when the slug is non-empty, and exactly the bare
numeric id string (no tilde appended) when the slug is empty. -/
theorem normalize_match_id (toISO : Int → String) (mi : RawMatchInfo)
    (ms : Option RawMatchScore) (slug : String) :
    (slug = "" → (normalizeMatch toISO mi ms slug).id = toString mi.matchId)
    ∧ (slug ≠ "" →
        (normalizeMatch toISO mi ms slug).id
          = toString mi.matchId ++ "~" ++ slug) := by
  constructor
  · intro h
    simp [normalizeMatch, h]
  · intro h
    simp [normalizeMatch, h]

/-- A concrete raw match descriptor used by witnesses. -/
def sampleRawMatchInfo : RawMatchInfo :=
  { matchId := 40381, state := some "In Progress", status := some "Live"
    team1 := none, team2 := none, seriesName := none, matchDesc := none
    matchFormat := none, startDate := none
    team1Score := none, team2Score := none }

/-- C5 witness: match id 40381 with slug `"aus-vs-ind"` yields
`"40381~aus-vs-ind"`; with the empty slug it yields `"40381"`. -/
theorem normalize_match_id_witness :
    (normalizeMatch (fun _ => "") sampleRawMatchInfo none "aus-vs-ind").id
        = "40381~aus-vs-ind"
    ∧ (normalizeMatch (fun _ => "") sampleRawMatchInfo none "").id = "40381" := by
  constructor
  · rw [(normalize_match_id (fun _ => "") sampleRawMatchInfo none
        "aus-vs-ind").2 (by decide)]
    rfl
  · rw [(normalize_match_id (fun _ => "") sampleRawMatchInfo none "").1 rfl]
    rfl

/-! ## Scorecard / match-info request construction
(cricbuzzScraper.js getScorecard and getMatchInfo)

`id.split('~')` for the one-character separator is modelled by an explicit
split on the character list.  The upstream fetch is passed in as a function
argument `fetchPage`; the invalid-id error is raised before it is ever
applied, so the error result is the same for every fetch function. -/

/-- Split a character list at every occurrence of `sep` (JS
`String.prototype.split` with a single-character separator: an empty input
gives one empty field, adjacent separators give empty fields). -/
def splitOnChar (sep : Char) : List Char → List (List Char)
  | [] => [[]]
  | c :: rest =>
    if c = sep then [] :: splitOnChar sep rest
    else
      match splitOnChar sep rest with
      | g :: gs => (c :: g) :: gs
      | [] => [[c]]

/-- `id.split('~')` as a list of strings. -/
def jsSplitTilde (s : String) : List String :=
  (splitOnChar '~' s.data).map String.mk

/-- The path logic shared by getScorecard and getMatchInfo:
`const [matchId, slug] = id.split('~')`; an empty (falsy) `matchId` throws
`Invalid match id`; a falsy slug (missing or empty) gives the bare path. -/
def scorecardPath (id : String) : Except String String :=
  let parts := jsSplitTilde id
  let matchId := parts.headD ("")
  let slug := (parts.drop 1).headD ("")
  if matchId = "" then Except.error ("Invalid match id: " ++ id)
  else if slug = "" then Except.ok ("/live-cricket-scorecard/" ++ matchId)
  else Except.ok ("/live-cricket-scorecard/" ++ matchId ++ "/" ++ slug)

/-- getScorecard: reject an invalid id, otherwise fetch the scorecard page
for the reconstructed path. -/
def getScorecard {β : Type} (fetchPage : String → β) (id : String) :
    Except String β :=
  match scorecardPath id with
  | Except.error e => Except.error e
  | Except.ok path => Except.ok (fetchPage path)

/-- getMatchInfo: same id validation and path reconstruction (the match-info
data is scraped from the scorecard page). -/
def getMatchInfo {β : Type} (fetchPage : String → β) (id : String) :
    Except String β :=
  match scorecardPath id with
  | Except.error e => Except.error e
  | Except.ok path => Except.ok (fetchPage path)

/-- C10: for every id whose portion before the first `~` is empty (the empty
string, or an id beginning with `~`), both getScorecard and getMatchInfo
fail with the invalid-match-id error, for every fetch function — the result
does not depend on the fetch, so no upstream request is made; for every id
with a non-empty portion and a falsy (missing or empty) slug, the request
path is built from the bare portion alone. -/
theorem invalid_id_rejected {β γ : Type} (f : String → β) (g : String → γ)
    (id : String) :
    ((jsSplitTilde id).headD ("") = "" →
      getScorecard f id = Except.error ("Invalid match id: " ++ id)
      ∧ getMatchInfo g id = Except.error ("Invalid match id: " ++ id))
    ∧ ((jsSplitTilde id).headD ("") ≠ "" →
        ((jsSplitTilde id).drop 1).headD ("") = "" →
      getScorecard f id
          = Except.ok (f ("/live-cricket-scorecard/"
              ++ (jsSplitTilde id).headD ("")))
      ∧ getMatchInfo g id
          = Except.ok (g ("/live-cricket-scorecard/"
              ++ (jsSplitTilde id).headD ("")))) := by
  constructor
  · intro h
    rw [List.headD_eq_head?_getD] at h
    constructor <;> simp [getScorecard, getMatchInfo, scorecardPath, h]
  · intro h1 h2
    rw [List.headD_eq_head?_getD] at h1
    rw [List.headD_eq_head?_getD, List.head?_drop] at h2
    constructor <;>
      simp [getScorecard, getMatchInfo, scorecardPath, h1, h2,
        List.headD_eq_head?_getD]

/-- C10 witness: `"~abc"` (empty numeric portion) is rejected by both
operations; `"40381"` (no slug) builds the bare path. -/
theorem invalid_id_rejected_witness :
    getScorecard (fun p => p) "~abc" = Except.error ("Invalid match id: ~abc")
    ∧ getMatchInfo (fun p => p) "~abc" = Except.error ("Invalid match id: ~abc")
    ∧ getScorecard (fun p => p) "40381"
        = Except.ok "/live-cricket-scorecard/40381"
    ∧ getMatchInfo (fun p => p) "40381"
        = Except.ok "/live-cricket-scorecard/40381" := by
  have h1 := (invalid_id_rejected (fun p => p) (fun p => p) "~abc").1 (by decide)
  have h2 := (invalid_id_rejected (fun p => p) (fun p => p) "40381").2
    (by decide) (by decide)
  refine ⟨h1.1, h1.2, ?_, ?_⟩
  · rw [h2.1]
    rfl
  · rw [h2.2]
    rfl

/-! ## Embedded-JSON extraction (cricbuzzScraper.js, extractJsonAt)

The JS loop walks `html[i]` for `i` from `startIdx`, tracking `depth` and
the position `start` of the last `{` seen at depth zero; at a `}` bringing
the depth to zero with `start` set it returns `html.slice(start, i + 1)`.
The loop is modelled over the suffix `html.drop startIdx` with `i` carried
as the absolute index. -/

def extractAux (html : List Char) : List Char → Nat → Int → Option Nat →
    Option (List Char)
  | [], _, _, _ => none
  | c :: rest, i, depth, start =>
    if c = '{' then
      extractAux html rest (i + 1) (depth + 1) (if depth = 0 then some i else start)
    else if c = '}' then
      if depth - 1 = 0 then
        match start with
        | some s => some ((html.drop s).take (i + 1 - s))
        | none => extractAux html rest (i + 1) (depth - 1) none
      else extractAux html rest (i + 1) (depth - 1) start
    else extractAux html rest (i + 1) depth start

def extractJsonAt (html : List Char) (startIdx : Nat) : Option (List Char) :=
  extractAux html (html.drop startIdx) startIdx 0 none

/-- Modelled from the amended claim's words: scan forward counting every
literal brace character (`depth` rises at `{`, falls at `}`, strings are not
treated specially) and return the index of the `}` at which the count
returns to zero, `none` if it never does. -/
def braceCloseIdx : List Char → Int → Nat → Option Nat
  | [], _, _ => none
  | c :: rest, depth, i =>
    if c = '{' then braceCloseIdx rest (depth + 1) (i + 1)
    else if c = '}' then
      if depth = 1 then some i else braceCloseIdx rest (depth - 1) (i + 1)
    else braceCloseIdx rest depth (i + 1)

theorem extractAux_pos (cs : List Char) :
    ∀ (html : List Char) (s j : Nat) (depth : Int), 1 ≤ depth →
    extractAux html cs (s + j) depth (some s)
      = (braceCloseIdx cs depth j).map (fun r => (html.drop s).take (r + 1)) := by
  induction cs with
  | nil => intro html s j depth _; rfl
  | cons c rest ih =>
    intro html s j depth hd
    by_cases hc : c = '{'
    · have hd0 : ¬ (depth = 0) := by omega
      simp only [extractAux, braceCloseIdx, if_pos hc, if_neg hd0]
      rw [show s + j + 1 = s + (j + 1) from by omega]
      exact ih html s (j + 1) (depth + 1) (by omega)
    · by_cases hc2 : c = '}'
      · by_cases hd1 : depth = 1
        · have hz : depth - 1 = 0 := by omega
          simp only [extractAux, braceCloseIdx, if_neg hc, if_pos hc2,
            if_pos hz, if_pos hd1, Option.map_some']
          rw [show s + j + 1 - s = j + 1 from by omega]
        · have hz : ¬ (depth - 1 = 0) := by omega
          simp only [extractAux, braceCloseIdx, if_neg hc, if_pos hc2,
            if_neg hz, if_neg hd1]
          rw [show s + j + 1 = s + (j + 1) from by omega]
          exact ih html s (j + 1) (depth - 1) (by omega)
      · simp only [extractAux, braceCloseIdx, if_neg hc, if_neg hc2]
        rw [show s + j + 1 = s + (j + 1) from by omega]
        exact ih html s (j + 1) depth hd

/-- C6 amended: when the scan starts at a `{` (the caller always passes the
index of a `{`), extractJsonAt returns exactly the substring from that `{`
through the `}` at which the raw brace count — counting every literal brace
character, including braces inside quoted strings — first returns to zero,
and absent if the count never returns to zero.  String-embedded braces are
counted like structural ones, not skipped. -/
theorem extract_json_brace_counting (html : List Char) (startIdx : Nat)
    (t : List Char) (h : html.drop startIdx = '{' :: t) :
    extractJsonAt html startIdx
      = (braceCloseIdx ('{' :: t) 0 0).map (fun j => ('{' :: t).take (j + 1)) := by
  unfold extractJsonAt
  rw [h]
  rw [show extractAux html ('{' :: t) startIdx 0 none
        = extractAux html t (startIdx + 1) 1 (some startIdx) from by
      simp [extractAux]]
  rw [show braceCloseIdx ('{' :: t) 0 0 = braceCloseIdx t 1 1 from by
      simp [braceCloseIdx]]
  rw [show startIdx + 1 = startIdx + 1 from rfl]
  have hmain := extractAux_pos t html startIdx 1 1 (le_refl 1)
  rw [hmain, h]

/-- A balanced JSON object whose single string value contains a `}`:
the text is the nine characters of the form open-brace, quote, a, quote,
colon, quote, close-brace, quote, close-brace. -/
def quotedBraceDoc : List Char := ['{', '"', 'a', '"', ':', '"', '}', '"', '}']

/-- C6 counterexample: on `quotedBraceDoc` the matching top-level `}` of the
object (handling the quoted brace) is the final character, so the claim
predicts the whole nine-character document; the code stops at the quoted
`}` inside the string and returns only the first seven characters. -/
theorem extract_json_quoted_brace_counterexample :
    extractJsonAt quotedBraceDoc 0 = some ['{', '"', 'a', '"', ':', '"', '}']
    ∧ extractJsonAt quotedBraceDoc 0 ≠ some quotedBraceDoc := by
  constructor <;> decide

/-- A document with a nested object: `x` then the seven characters
open-brace, a, open-brace, b, close-brace, c, close-brace. -/
def nestedBraceDoc : List Char := ['x', '{', 'a', '{', 'b', '}', 'c', '}']

/-- C6 amended witness: scanning `nestedBraceDoc` from index 1 returns the
full nested object, as the brace-counting specification predicts. -/
theorem extract_json_brace_counting_witness :
    extractJsonAt nestedBraceDoc 1 = some ['{', 'a', '{', 'b', '}', 'c', '}'] := by
  rw [extract_json_brace_counting nestedBraceDoc 1
    ['a', '{', 'b', '}', 'c', '}'] (by decide)]
  decide

/-! ## Extras and Total line parsing (cricbuzzScraper.js, parseExtras /
parseTotal)

The JS regexes are first-match scans.  `/b (\d+)/` matches at the leftmost
position where the literal label followed by a space is a prefix and at
least one digit follows; the capture is the maximal digit run (the pattern
has no viable backtracking: shortening `\d+` leaves a digit where the next
literal is expected).  Likewise for the runs-wickets pattern
`/(\d+)[-\/](\d+)/` and the overs pattern (open parenthesis, a run of
digits and dots, whitespace, then the two letters o-v case-insensitively). -/

def startsWithChars : List Char → List Char → Bool
  | [], _ => true
  | _ :: _, [] => false
  | p :: ps, c :: cs => p = c && startsWithChars ps cs

def digitsVal (ds : List Char) : Nat :=
  ds.foldl (fun a c => a * 10 + (c.toNat - 48)) 0

/-- One attempt of `/<label> (\d+)/` at the head of `cs`. -/
def matchLabelAt (pat : List Char) (cs : List Char) : Option Nat :=
  if startsWithChars pat cs then
    let ds := (cs.drop pat.length).takeWhile Char.isDigit
    if ds = [] then none else some (digitsVal ds)
  else none

/-- Leftmost match of `/<label> (\d+)/`: the value captured at the first
position where the pattern matches, `none` if it matches nowhere. -/
def findLabeled (pat : List Char) : List Char → Option Nat
  | [] => none
  | c :: rest =>
    match matchLabelAt pat (c :: rest) with
    | some n => some n
    | none => findLabeled pat rest

structure Extras where
  b : Nat
  lb : Nat
  w : Nat
  nb : Nat
  p : Nat
deriving DecidableEq, Repr

/-- parseExtras: each field is the first `/<label> (\d+)/` match in the
line, 0 when the pattern matches nowhere (`(+x || 0)` also maps a captured
`"0"` to 0, which coincides with the numeric value). -/
def parseExtras (text : List Char) : Extras :=
  { b := (findLabeled ['b', ' '] text).getD 0
    lb := (findLabeled ['l', 'b', ' '] text).getD 0
    w := (findLabeled ['w', ' '] text).getD 0
    nb := (findLabeled ['n', 'b', ' '] text).getD 0
    p := (findLabeled ['p', ' '] text).getD 0 }

/-- One attempt of `/(\d+)[-\/](\d+)/` at the head of `cs`. -/
def matchScoreAt (cs : List Char) : Option (Nat × Nat) :=
  let d1 := cs.takeWhile Char.isDigit
  if d1 = [] then none
  else
    match cs.drop d1.length with
    | sep :: rest2 =>
      if sep = '-' || sep = '/' then
        let d2 := rest2.takeWhile Char.isDigit
        if d2 = [] then none else some (digitsVal d1, digitsVal d2)
      else none
    | [] => none

/-- Leftmost match of the runs-wickets pattern. -/
def findScore : List Char → Option (Nat × Nat)
  | [] => none
  | c :: rest =>
    match matchScoreAt (c :: rest) with
    | some v => some v
    | none => findScore rest

def isOversChar (c : Char) : Bool := c.isDigit || c = '.'

/-- JS `\s` on the ASCII range: space, tab, line feed, vertical tab, form
feed, carriage return. -/
def isSpaceJS (c : Char) : Bool :=
  c = ' ' || c = '\t' || c = '\n' || c = '\r' || c.toNat = 11 || c.toNat = 12

/-- One attempt of the overs pattern at the head of `cs`: an opening
parenthesis, a non-empty run of digits and dots (captured), non-empty
whitespace, then `Ov` case-insensitively. -/
def matchOversAt (cs : List Char) : Option (List Char) :=
  match cs with
  | '(' :: rest =>
    let ds := rest.takeWhile isOversChar
    if ds = [] then none
    else
      let after := rest.drop ds.length
      let ws := after.takeWhile isSpaceJS
      if ws = [] then none
      else
        match after.drop ws.length with
        | o :: v :: _ =>
          if o.toLower = 'o' && v.toLower = 'v' then some ds else none
        | _ => none
  | _ => none

/-- Leftmost match of the overs pattern. -/
def findOvers : List Char → Option (List Char)
  | [] => none
  | c :: rest =>
    match matchOversAt (c :: rest) with
    | some v => some v
    | none => findOvers rest

structure Total where
  r : Nat
  w : Nat
  o : Option (List Char)
deriving DecidableEq, Repr

/-- parseTotal: absent when no runs-wickets pattern occurs; otherwise runs
and wickets from its captures, with the overs capture optional. -/
def parseTotal (text : List Char) : Option Total :=
  match findScore text with
  | none => none
  | some rw => some { r := rw.1, w := rw.2, o := findOvers text }

/-- C7 counterexample: the claim says a label not present in the line
defaults to zero; but on the line `Extras 1 (lb 1)` — where the standalone
byes label is absent — the first-match byes pattern fires inside the
leg-byes label `lb 1`, so byes parses as 1, not 0. -/
theorem parse_extras_default_counterexample :
    parseExtras ("Extras 1 (lb 1)".data)
        = { b := 1, lb := 1, w := 0, nb := 0, p := 0 }
    ∧ (parseExtras ("Extras 1 (lb 1)".data)).b ≠ 0 := by
  constructor <;> decide

/-- C7 amended: each Extras field is the first occurrence of its
label-space-digits pattern as a raw substring match — so the byes pattern
can fire inside a leg-byes or no-balls label — and a field is zero exactly
when its pattern occurs nowhere in the line; the Total behaviour is as
claimed: absent when no runs-wickets pattern occurs, overs group optional;
and on the two spec fixture lines the claimed values hold. -/
theorem parse_extras_total_spec :
    (∀ text : List Char,
      (findLabeled ['b', ' '] text = none → (parseExtras text).b = 0)
      ∧ (findLabeled ['l', 'b', ' '] text = none → (parseExtras text).lb = 0)
      ∧ (findLabeled ['w', ' '] text = none → (parseExtras text).w = 0)
      ∧ (findLabeled ['n', 'b', ' '] text = none → (parseExtras text).nb = 0)
      ∧ (findLabeled ['p', ' '] text = none → (parseExtras text).p = 0))
    ∧ (∀ text : List Char, findScore text = none → parseTotal text = none)
    ∧ (∀ (text : List Char) (tot : Total),
        parseTotal text = some tot → tot.o = findOvers text)
    ∧ parseExtras ("Extras 9 (b 0, lb 1, w 8, nb 0, p 0)".data)
        = { b := 0, lb := 1, w := 8, nb := 0, p := 0 }
    ∧ parseTotal ("Total 79-3 (18 Overs, RR: 4.39)".data)
        = some { r := 79, w := 3, o := some ['1', '8'] } := by
  refine ⟨?_, ?_, ?_, by decide, by decide⟩
  · intro text
    refine ⟨?_, ?_, ?_, ?_, ?_⟩ <;> intro h <;> simp [parseExtras, h]
  · intro text h
    simp [parseTotal, h]
  · intro text tot h
    simp only [parseTotal] at h
    cases hfs : findScore text with
    | none => rw [hfs] at h; exact absurd h (by simp)
    | some rw0 =>
      rw [hfs] at h
      simp only [Option.some.injEq] at h
      rw [← h]

/-- C7 amended witness: a line with no byes pattern at all gives byes 0, a
line with no runs-wickets pattern gives an absent total, and the two spec
fixtures evaluate to the claimed records. -/
theorem parse_extras_total_spec_witness :
    (parseExtras ("nothing here".data)).b = 0
    ∧ parseTotal ("no score at all".data) = none
    ∧ parseExtras ("Extras 9 (b 0, lb 1, w 8, nb 0, p 0)".data)
        = { b := 0, lb := 1, w := 8, nb := 0, p := 0 }
    ∧ parseTotal ("Total 79-3 (18 Overs, RR: 4.39)".data)
        = some { r := 79, w := 3, o := some ['1', '8'] } := by
  refine ⟨?_, ?_, parse_extras_total_spec.2.2.2.1, parse_extras_total_spec.2.2.2.2⟩
  · exact (parse_extras_total_spec.1 ("nothing here".data)).1 (by decide)
  · exact parse_extras_total_spec.2.1 ("no score at all".data) (by decide)

/-! ## Toss sentence parsing (cricbuzzScraper.js, parseMatchInfoHtml)

The toss facts value is matched against `/^(.+?)\s+won the toss/i` and
`/opt to (\w+)/i`.  `.` excludes line terminators, `\s` is JS whitespace,
`\w` is letters, digits and underscore, and both literals compare
case-insensitively.  The lazy `(.+?)` takes the shortest non-empty prefix
followed by a whitespace run and the literal; since the literal starts with
a non-whitespace character, only the full whitespace run can satisfy
`\s+`. -/

def isWordChar (c : Char) : Bool := c.isAlpha || c.isDigit || c = '_'

/-- Case-insensitive prefix test (ASCII folding, as in the source's
`/i` patterns over ASCII literals). -/
def startsWithCI : List Char → List Char → Bool
  | [], _ => true
  | _ :: _, [] => false
  | p :: ps, c :: cs => p.toLower = c.toLower && startsWithCI ps cs

def optToPat : List Char := ['o', 'p', 't', ' ', 't', 'o', ' ']

/-- One attempt of `/opt to (\w+)/i` at the head of `cs`: the literal
case-insensitively, then a non-empty maximal word-character run. -/
def matchChoiceAt (cs : List Char) : Option (List Char) :=
  if startsWithCI optToPat cs then
    let ws := (cs.drop optToPat.length).takeWhile isWordChar
    if ws = [] then none else some ws
  else none

/-- Leftmost match of `/opt to (\w+)/i`. -/
def findChoice : List Char → Option (List Char)
  | [] => none
  | c :: rest =>
    match matchChoiceAt (c :: rest) with
    | some v => some v
    | none => findChoice rest

/-- JS `.` (no dotall flag): any character except a line terminator. -/
def isDotChar (c : Char) : Bool :=
  !(c = '\n' || c = '\r' || c.toNat = 8232 || c.toNat = 8233)

def wonTheTossPat : List Char :=
  ['w', 'o', 'n', ' ', 't', 'h', 'e', ' ', 't', 'o', 's', 's']

/-- The anchored lazy scan of `/^(.+?)\s+won the toss/i`: grow the captured
prefix one (non-terminator) character at a time; after each character test
whether a non-empty whitespace run followed by the literal comes next. -/
def winnerGo (acc : List Char) : List Char → Option (List Char)
  | [] => none
  | c :: rest =>
    if isDotChar c then
      let ws := rest.takeWhile isSpaceJS
      if ws ≠ [] && startsWithCI wonTheTossPat (rest.drop ws.length) then
        some (acc ++ [c])
      else winnerGo (acc ++ [c]) rest
    else none

/-- The toss-derivation step of parseMatchInfoHtml: `tossWinner` from the
anchored pattern (empty string when it fails), `tossChoice` the lowercased
captured word of `/opt to (\w+)/i` (empty string when it fails). -/
def parseToss (tossText : List Char) : List Char × List Char :=
  (match winnerGo [] tossText with
   | some p => p
   | none => [],
   match findChoice tossText with
   | some wd => wd.map Char.toLower
   | none => [])

/-- C9 counterexample: the claim restricts tossChoice to bat, bowl or
absent; but the capture is `(\w+)` — any word — so the sentence
`India won the toss and opt to field` produces tossChoice `field`,
which is neither bat, bowl, nor absent. -/
theorem toss_choice_counterexample :
    (parseToss ("India won the toss and opt to field".data)).2 = "field".data
    ∧ (parseToss ("India won the toss and opt to field".data)).2 ≠ "bat".data
    ∧ (parseToss ("India won the toss and opt to field".data)).2 ≠ "bowl".data
    ∧ (parseToss ("India won the toss and opt to field".data)).2 ≠ [] := by
  refine ⟨by decide, by decide, by decide, by decide⟩

/-- C9 amended: tossChoice is the lowercased word captured by
`/opt to (\w+)/i` — any word, not only bat or bowl — and is absent (the
empty string) exactly when that pattern matches nowhere in the sentence;
tossWinner is the text captured before ` won the toss` by the anchored
pattern, absent when the sentence does not match; on conforming sentences
the values are bat/bowl as the spec illustrates. -/
theorem parse_toss_spec :
    (∀ t : List Char, findChoice t = none → (parseToss t).2 = [])
    ∧ (∀ t w : List Char, findChoice t = some w →
        (parseToss t).2 = w.map Char.toLower)
    ∧ (∀ t : List Char, winnerGo [] t = none → (parseToss t).1 = [])
    ∧ (∀ t w : List Char, winnerGo [] t = some w → (parseToss t).1 = w)
    ∧ parseToss ("Australia Women won the toss and opt to bat".data)
        = ("Australia Women".data, "bat".data)
    ∧ parseToss ("Sri Lanka won the toss and OPT TO BOWL".data)
        = ("Sri Lanka".data, "bowl".data) := by
  refine ⟨?_, ?_, ?_, ?_, by decide, by decide⟩
  · intro t h
    simp [parseToss, h]
  · intro t w h
    simp [parseToss, h]
  · intro t h
    simp [parseToss, h]
  · intro t w h
    simp [parseToss, h]

/-- C9 amended witness: a sentence with no `opt to` clause yields an absent
choice, a non-matching winner sentence yields an absent winner, and the two
conforming sentences yield bat/bowl. -/
theorem parse_toss_spec_witness :
    (parseToss ("rain delayed the toss".data)).2 = []
    ∧ (parseToss ("toss not yet held".data)).1 = []
    ∧ parseToss ("Australia Women won the toss and opt to bat".data)
        = ("Australia Women".data, "bat".data)
    ∧ parseToss ("Sri Lanka won the toss and OPT TO BOWL".data)
        = ("Sri Lanka".data, "bowl".data) := by
  refine ⟨?_, ?_, parse_toss_spec.2.2.2.2.1, parse_toss_spec.2.2.2.2.2⟩
  · exact parse_toss_spec.1 ("rain delayed the toss".data) (by decide)
  · exact parse_toss_spec.2.2.1 ("toss not yet held".data) (by decide)

end Criclive
